import Mathlib

/-!
Verification of the microstep-table tooling of PyTrinamicTools.

The script `PyTrinamicTools/tools/MicrostepCalculator.py` samples a quarter
sine wave (`sineWave`), generates sampling points (`linearGenerator`,
`hardcodedGenerator`), and hands the sampled waveform to
`MicroStepTable.encodeWaveform` (defined in `PyTrinamicTools/helpers/Microsteps.py`).

The sampler and the generators are embedded here directly from the source.
Python's dynamic typing is modelled by `PyVal`, its exceptions by `PyErr`
values in an `Except`, and `round`/`max` by the faithful `pyRound`/`pyMax`.
The IEEE-754 evaluation of `math.sin(2*(i+0.5)/1024*math.pi)` is abstracted
as a function parameter `f : ℚ → ℚ`: every theorem below holds for an
arbitrary such function, so it holds in particular for the actual float
sine; the surrounding exact rational arithmetic idealises the float
arithmetic of the source.
-/

/-- A Python runtime value, as far as `sineWave`'s type check is concerned:
an `int`, a `float`, a `str`, or `None`. -/
inductive PyVal where
  | int (z : ℤ)
  | float (q : ℚ)
  | str (s : String)
  | none
  deriving DecidableEq

/-- The Python exceptions raised by `sineWave`. -/
inductive PyErr where
  | typeError
  | valueError (msg : String)
  | runtimeError (msg : String)
  deriving DecidableEq

/-- Whether a `PyVal` is a Python `int`, i.e. `type(v) == int`. -/
def PyVal.isInt : PyVal → Bool
  | .int _ => true
  | _ => false

/-- Python 3's `round` to the nearest integer, ties to even. -/
def pyRound (q : ℚ) : ℤ :=
  let fl := ⌊q⌋
  let frac := q - fl
  if frac < 1/2 then fl
  else if 1/2 < frac then fl + 1
  else if fl % 2 = 0 then fl else fl + 1

/-- Python's `max` over a list of ints: `None` stands for the
`ValueError` that `max([])` raises. -/
def pyMax : List ℤ → Option ℤ
  | [] => Option.none
  | x :: xs => some (xs.foldl max x)

/-- The sampling loop of `sineWave`
(`values += [round(math.sin(2*(i+0.5)/1024*math.pi)*amplitude + offset)]`),
with `f i` standing for the float value of `math.sin(2*(i+0.5)/1024*math.pi)`. -/
def sineWaveValues (f : ℚ → ℚ) (amplitude offset : ℤ) (pts : List ℚ) : List ℤ :=
  pts.map (fun i => pyRound (f i * (amplitude : ℚ) + (offset : ℚ)))

/-- `sineWave(amplitude, offset, sampling_points)` from
`MicrostepCalculator.py`: type-check the two parameters, sample the sine
wave at every point, raise `ValueError` when the maximum reaches 256,
print a warning (the returned `Bool`) when it exceeds 247, and raise
`RuntimeError` unless exactly 256 values were sampled. -/
def sineWave (f : ℚ → ℚ) (amplitude offset : PyVal) (pts : List ℚ) :
    Except PyErr (List ℤ × Bool) :=
  match amplitude, offset with
  | .int a, .int o =>
    let values := sineWaveValues f a o pts
    match pyMax values with
    | Option.none => .error (.valueError "max() arg is an empty sequence")
    | some m =>
      if 256 ≤ m then .error (.valueError "Sampled amplitude has to be below 256")
      else
        let warned : Bool := decide (247 < m)
        if values.length ≠ 256 then
          .error (.runtimeError "256 sampling points are required")
        else .ok (values, warned)
  | _, _ => .error PyErr.typeError

/-- The body of `linearGenerator`'s `while value < 256` loop, unfolded from
the counter `value`; the generator itself is `linearGeneratorFrom 0`. -/
def linearGeneratorFrom (value : ℕ) : List ℕ :=
  if h : value < 256 then value :: linearGeneratorFrom (value + 1) else []
termination_by 256 - value

/-- `linearGenerator()` from `MicrostepCalculator.py`: the list of values
yielded by the `while value < 256` loop started at `value = 0`. -/
def linearGenerator : List ℕ :=
  linearGeneratorFrom 0

/-- `hardcodedGenerator()` from `MicrostepCalculator.py`: the hardcoded
256-element list of sampling points, yielded as written in the source. -/
def hardcodedGenerator : List ℕ :=
  [0, 1, 2, 3, 4, 5, 6, 7, 8, 9, 10, 11, 12, 13, 14, 15, 16, 17, 18, 19, 20, 21, 22, 23, 24, 25, 26, 27, 28, 29, 30, 31, 32, 33, 34, 35, 36, 37, 38, 39, 40, 41, 42, 43, 44, 45, 46, 47, 48, 49, 50, 51, 52, 53, 54, 55, 56, 57, 58, 59, 60, 61, 62, 63, 64, 65, 66, 67, 68, 69, 70, 71, 72, 73, 74, 75, 76, 77, 78, 79, 80, 81, 82, 83, 84, 85, 86, 87, 88, 89, 90, 91, 92, 93, 94, 95, 96, 97, 98, 99, 100, 101, 102, 103, 104, 105, 106, 107, 108, 109, 110, 111, 112, 113, 114, 115, 116, 117, 118, 119, 120, 121, 122, 123, 124, 125, 126, 127, 128, 129, 130, 131, 132, 133, 134, 135, 136, 137, 138, 139, 140, 141, 142, 143, 144, 145, 146, 147, 148, 149, 150, 151, 152, 153, 154, 155, 156, 157, 158, 159, 160, 161, 162, 163, 164, 165, 166, 167, 168, 169, 170, 171, 172, 173, 174, 175, 176, 177, 178, 179, 180, 181, 182, 183, 184, 185, 186, 187, 188, 189, 190, 191, 192, 193, 194, 195, 196, 197, 198, 199, 200, 201, 202, 203, 204, 205, 206, 207, 208, 209, 210, 211, 212, 213, 214, 215, 216, 217, 218, 219, 220, 221, 222, 223, 224, 225, 226, 227, 228, 229, 230, 231, 232, 233, 234, 235, 236, 237, 238, 239, 240, 241, 242, 243, 244, 245, 246, 247, 248, 249, 250, 251, 252, 253, 254, 255]

/-- Fuel-indexed semantics of `linearGenerator`'s `while value < 256` loop:
`Option.none` means the fuel ran out with the loop still running, so
`(linearGenFuel fuel value).isSome` states that the loop halts within
`fuel` iterations when started at counter `value`. -/
def linearGenFuel : ℕ → ℕ → Option (List ℕ)
  | 0, value => if value < 256 then Option.none else some []
  | fuel + 1, value =>
    if value < 256 then (linearGenFuel fuel (value + 1)).map (value :: ·)
    else some []

/-!
The encoder `MicroStepTable.encodeWaveform` lives in
`PyTrinamicTools/helpers/Microsteps.py`, which is not part of the sources
here; the definitions below model it from the specification (sections 3,
4.1 and 7): shape validation, delta computation, two-magnitude zone
determination, bit packing into eight 32-bit words, control and start
words, and the final reconstruction self-check.
-/

/-- Modelled from the spec: the error taxonomy of section 7 for the
missing `MicroStepTable.encodeWaveform` — `ShapeError`, `EncodingError`
with its message, and `InternalConsistencyError`. -/
inductive EncodeError where
  | shapeError
  | encodingError (msg : String)
  | internalConsistencyError
  deriving DecidableEq

/-- Modelled from the spec: the RegisterSet of section 3 — eight 32-bit
MSLUT table words, one MSLUTSEL control word, one MSLUTSTART start word. -/
structure RegisterSet where
  reg_MSLUT : List ℕ
  reg_MSLUTSEL : ℕ
  reg_MSLUTSTART : ℕ
  deriving DecidableEq

/-- Modelled from the spec: step 2 of section 4.1 —
`delta[i] = samples[i+1] - samples[i]` for `i` in `[0, 254]`. -/
def deltasOf (samples : List ℤ) : List ℤ :=
  samples.tail.zipWith (fun a b => a - b) samples

/-- Modelled from the spec: the zone pattern of step 3 of section 4.1 —
the positions whose delta equals the upper magnitude must form at most
three contiguous regions, low then high then low again. -/
def isLowHighLow (bits : List Bool) : Bool :=
  ((bits.dropWhile (fun b => !b)).dropWhile (fun b => b)).all (fun b => !b)

/-- Modelled from the spec: step 4 of section 4.1 — pack bit `32*j + k` of
the table into bit `k` (least-significant-bit-first) of word `j`, the
missing positions past 254 being the implicit trailing zero bits. -/
def packWord (bits : List Bool) (j : ℕ) : ℕ :=
  (List.range 32).foldl (fun acc k => acc + (if bits.getD (32 * j + k) false then 2 ^ k else 0)) 0

/-- Modelled from the spec: the bit of the packed table at position `i`,
read back from word `i / 32`, bit `i % 32`. -/
def tableBit (t : RegisterSet) (i : ℕ) : ℕ :=
  (t.reg_MSLUT.getD (i / 32) 0) / 2 ^ (i % 32) % 2

/-- Modelled from the spec: step 7 of section 4.1 — regenerate the 256
samples from the start value (bits 0-7 of MSLUTSTART), the zone base
(bits 0-1 of MSLUTSEL) and the deltas implied by the table bits:
`sample[i+1] = sample[i] + base + bit[i]`. -/
def reconstructWaveform (t : RegisterSet) : List ℤ :=
  let start : ℤ := (t.reg_MSLUTSTART % 256 : ℕ)
  let base : ℤ := (t.reg_MSLUTSEL % 4 : ℕ)
  List.scanl (fun s i => s + base + (tableBit t i : ℤ)) start (List.range 255)

/-- Modelled from the spec: `MicroStepTable.encodeWaveform` per section
4.1. Step 1 validates the shape (`ShapeError`); step 2 computes the deltas
and rejects any outside `{0,1,2,3}` (`EncodingError`); step 3 takes the
lower base magnitude `bLow` as the least delta, demands every delta be
`bLow` or `bLow + 1` and the upper-magnitude positions form a
low/high/low zone pattern with transition indices `W0 ≤ W1 ≤ W2`
(`EncodingError` otherwise); steps 4-6 pack the per-position bits into
eight 32-bit words, the base and transition indices into the control
word (base at bits 0-1, width class at bits 2-3, `W0`/`W1`/`W2` at bits
8-15/16-23/24-31) and the first sample into the start word; step 7
verifies the reconstruction and fails with `InternalConsistencyError` on
any mismatch rather than returning a RegisterSet. -/
def encodeWaveform (samples : List ℤ) : Except EncodeError RegisterSet :=
  if samples.length = 256 ∧ ∀ v ∈ samples, 0 ≤ v ∧ v ≤ 255 then
    let ds := deltasOf samples
    if ∀ d ∈ ds, 0 ≤ d ∧ d ≤ 3 then
      let bLow := ds.foldl min 3
      if ∀ d ∈ ds, d = bLow ∨ d = bLow + 1 then
        let bits := ds.map (fun d => d == bLow + 1)
        if isLowHighLow bits then
          let w0 := (bits.takeWhile (fun b => !b)).length
          let w1 := w0 + ((bits.dropWhile (fun b => !b)).takeWhile (fun b => b)).length
          let w2 := 255
          let t : RegisterSet :=
            { reg_MSLUT := (List.range 8).map (packWord bits)
              reg_MSLUTSEL := bLow.toNat % 4 + bLow.toNat % 4 * 4 + w0 * 2 ^ 8 + w1 * 2 ^ 16 + w2 * 2 ^ 24
              reg_MSLUTSTART := samples.headI.toNat % 256 }
          if reconstructWaveform t = samples then .ok t
          else .error .internalConsistencyError
        else .error (.encodingError "waveform not representable in two delta magnitudes")
      else .error (.encodingError "waveform not representable in two delta magnitudes")
    else .error (.encodingError "non-monotone or step too large")
  else .error .shapeError

/-- Equality of `Except` results is decidable, so concrete runs of the
embedded functions can be checked by evaluation. -/
instance exceptDecEq {ε α : Type} [DecidableEq ε] [DecidableEq α] :
    DecidableEq (Except ε α)
  | .error e, .error e' =>
    if h : e = e' then .isTrue (h ▸ rfl)
    else .isFalse (fun hc => h (Except.error.inj hc))
  | .error _, .ok _ => .isFalse (fun hc => Except.noConfusion hc)
  | .ok _, .error _ => .isFalse (fun hc => Except.noConfusion hc)
  | .ok a, .ok a' =>
    if h : a = a' then .isTrue (h ▸ rfl)
    else .isFalse (fun hc => h (Except.ok.inj hc))

/-! Helper lemmas shared by several of the theorems below. -/

theorem le_foldl_max (l : List ℤ) (x : ℤ) : x ≤ l.foldl max x := by
  induction l generalizing x with
  | nil => simp
  | cons y ys ih => exact le_trans (le_max_left x y) (ih (max x y))

theorem mem_le_foldl_max (l : List ℤ) (x v : ℤ) (hv : v ∈ l) : v ≤ l.foldl max x := by
  induction l generalizing x with
  | nil => simp at hv
  | cons y ys ih =>
    rcases List.mem_cons.1 hv with rfl | hv'
    · exact le_trans (le_max_right x v) (le_foldl_max ys (max x v))
    · exact ih (max x y) hv'

theorem pyMax_le (l : List ℤ) (m : ℤ) (h : pyMax l = some m) : ∀ v ∈ l, v ≤ m := by
  cases l with
  | nil => simp [pyMax] at h
  | cons x xs =>
    simp only [pyMax, Option.some.injEq] at h
    subst h
    intro v hv
    rcases List.mem_cons.1 hv with rfl | hv'
    · exact le_foldl_max xs v
    · exact mem_le_foldl_max xs x v hv'

theorem pyRound_intCast (n : ℤ) : pyRound (n : ℚ) = n := by
  simp [pyRound]

theorem encode_shape_ok (samples : List ℤ)
    (h : samples.length = 256 ∧ ∀ v ∈ samples, 0 ≤ v ∧ v ≤ 255) :
    encodeWaveform samples ≠ Except.error EncodeError.shapeError := by
  simp only [encodeWaveform]
  rw [if_pos h]
  split_ifs <;> simp

theorem foldl_min_replicate_zero (n : ℕ) (x : ℤ) :
    (List.replicate (n + 1) (0 : ℤ)).foldl min x = min x 0 := by
  induction n generalizing x with
  | zero => simp
  | succ k ih =>
    rw [List.replicate_succ, List.foldl_cons, ih, min_assoc, min_self]

set_option maxRecDepth 8000 in
/-- The all-equal waveform of 256 samples of value 7 (255 zero deltas)
encodes successfully, into the all-zero table with base 0. -/
theorem encode_replicate7 :
    encodeWaveform (List.replicate 256 7) =
      Except.ok { reg_MSLUT := List.replicate 8 0, reg_MSLUTSEL := 4294967040,
                  reg_MSLUTSTART := 7 } := by
  have hds : deltasOf (List.replicate 256 (7 : ℤ)) = List.replicate 255 0 := by decide
  have hmin : (List.replicate 255 (0 : ℤ)).foldl min 3 = 0 := by
    rw [show (255 : ℕ) = 254 + 1 from rfl, foldl_min_replicate_zero]
    omega
  simp only [encodeWaveform]
  rw [hds, hmin]
  decide

/-- C1: for every 256-sample waveform on which `encodeWaveform` succeeds,
reconstructing the samples from the produced RegisterSet (start value plus
the deltas implied by the packed bits and zone bases) yields exactly the
original input at all 256 positions; a mismatching RegisterSet is never
returned, the reconstruction self-check failing with
`InternalConsistencyError` instead. -/
theorem spec_roundtrip_exact (samples : List ℤ) (t : RegisterSet)
    (h : encodeWaveform samples = Except.ok t) :
    reconstructWaveform t = samples := by
  simp only [encodeWaveform] at h
  split_ifs at h with h1 h2 h3 h4 h5 <;> injection h with h'
  rw [← h']
  exact h5

set_option maxRecDepth 8000 in
/-- C1 witness: the all-equal waveform of 256 samples of value 7 encodes
successfully and its RegisterSet reconstructs to the input. -/
theorem spec_roundtrip_exact_witness :
    reconstructWaveform ⟨List.replicate 8 0, 4294967040, 7⟩ = List.replicate 256 7 :=
  spec_roundtrip_exact (List.replicate 256 7) ⟨List.replicate 8 0, 4294967040, 7⟩
    encode_replicate7

/-- C2: a sequence whose length is not 256 or that holds a value outside
`[0, 255]` (negative values included) is rejected with `ShapeError` and no
RegisterSet is produced; a sequence of exactly 256 integers in `[0, 255]`
passes the shape validation. -/
theorem spec_shape_enforced (samples : List ℤ) :
    ((samples.length ≠ 256 ∨ ∃ v ∈ samples, v < 0 ∨ 255 < v) →
      encodeWaveform samples = Except.error EncodeError.shapeError) ∧
    ((samples.length = 256 ∧ ∀ v ∈ samples, 0 ≤ v ∧ v ≤ 255) →
      encodeWaveform samples ≠ Except.error EncodeError.shapeError) := by
  constructor
  · intro hbad
    have hA : ¬(samples.length = 256 ∧ ∀ v ∈ samples, 0 ≤ v ∧ v ≤ 255) := by
      rintro ⟨hlen, hall⟩
      rcases hbad with hlen' | ⟨v, hv, hout⟩
      · exact hlen' hlen
      · have := hall v hv
        omega
    simp only [encodeWaveform]
    rw [if_neg hA]
  · exact encode_shape_ok samples

set_option maxRecDepth 8000 in
/-- C2 witness: the empty sequence is rejected with `ShapeError`, and the
all-zero 256-sample sequence passes the shape validation. -/
theorem spec_shape_enforced_witness :
    encodeWaveform [] = Except.error EncodeError.shapeError ∧
    encodeWaveform (List.replicate 256 0) ≠ Except.error EncodeError.shapeError :=
  ⟨(spec_shape_enforced []).1 (Or.inl (by decide)),
   (spec_shape_enforced (List.replicate 256 0)).2 (by decide)⟩

/-- C3: a 256-sample waveform with values in `[0, 255]` in which some
consecutive difference is negative or greater than 3 is rejected with
`EncodingError` and produces no RegisterSet. -/
theorem spec_reject_bad_deltas (samples : List ℤ)
    (hlen : samples.length = 256)
    (hrange : ∀ v ∈ samples, 0 ≤ v ∧ v ≤ 255)
    (hbad : ∃ d ∈ deltasOf samples, d < 0 ∨ 3 < d) :
    encodeWaveform samples =
      Except.error (EncodeError.encodingError "non-monotone or step too large") := by
  have hB : ¬ ∀ d ∈ deltasOf samples, 0 ≤ d ∧ d ≤ 3 := by
    intro hall
    obtain ⟨d, hd, hv⟩ := hbad
    have := hall d hd
    omega
  simp only [encodeWaveform]
  rw [if_pos ⟨hlen, hrange⟩, if_neg hB]

set_option maxRecDepth 8000 in
/-- C3 witness: the waveform `0, 4, 4, ..., 4` (a single delta of 4) is
rejected with `EncodingError`. -/
theorem spec_reject_bad_deltas_witness :
    encodeWaveform (0 :: List.replicate 255 4) =
      Except.error (EncodeError.encodingError "non-monotone or step too large") :=
  spec_reject_bad_deltas (0 :: List.replicate 255 4) (by decide) (by decide) (by decide)

theorem foldl_max_replicate (n : ℕ) (c x : ℤ) :
    (List.replicate (n + 1) c).foldl max x = max x c := by
  induction n generalizing x with
  | zero => simp
  | succ k ih =>
    rw [List.replicate_succ, List.foldl_cons, ih, max_assoc, max_self]

theorem pyMax_replicate (n : ℕ) (c : ℤ) :
    pyMax (List.replicate (n + 1) c) = some c := by
  rw [List.replicate_succ]
  simp only [pyMax, Option.some.injEq]
  cases n with
  | zero => rfl
  | succ k => rw [foldl_max_replicate k c c, max_self]

theorem linearGeneratorFrom_spec :
    ∀ (k n : ℕ), 256 ≤ n + k → linearGeneratorFrom n = List.range' n (256 - n)
  | 0, n, h => by
    unfold linearGeneratorFrom
    rw [dif_neg (by omega : ¬ n < 256), show 256 - n = 0 by omega]
    rfl
  | k + 1, n, h => by
    unfold linearGeneratorFrom
    by_cases hn : n < 256
    · rw [dif_pos hn, linearGeneratorFrom_spec k (n + 1) (by omega),
        show 256 - n = (256 - (n + 1)) + 1 by omega, List.range'_succ]
    · rw [dif_neg hn, show 256 - n = 0 by omega]
      rfl

theorem linearGenerator_eq_range : linearGenerator = List.range 256 := by
  show linearGeneratorFrom 0 = _
  rw [linearGeneratorFrom_spec 256 0 (by omega), List.range_eq_range']

set_option maxRecDepth 8000 in
theorem hardcodedGenerator_eq_range : hardcodedGenerator = List.range 256 := by
  decide

theorem pyRound_eval (q : ℚ) (n : ℤ) (h : q = (n : ℚ)) : pyRound q = n :=
  h ▸ pyRound_intCast n

theorem sineWaveValues_eq_replicate (f : ℚ → ℚ) (a o : ℤ) (pts : List ℚ) (c : ℤ)
    (h : ∀ i ∈ pts, pyRound (f i * (a : ℚ) + (o : ℚ)) = c) :
    sineWaveValues f a o pts = List.replicate pts.length c := by
  unfold sineWaveValues
  rw [List.eq_replicate_iff]
  refine ⟨by simp, ?_⟩
  intro x hx
  obtain ⟨i, hi, rfl⟩ := List.mem_map.1 hx
  exact h i hi

theorem sineWaveValues_one_255 :
    sineWaveValues (fun _ => 1) 255 0 ((List.range 256).map (fun n : ℕ => (n : ℚ))) =
      List.replicate 256 255 := by
  rw [sineWaveValues_eq_replicate (fun _ => 1) 255 0 _ 255
    (fun i _ => pyRound_eval _ 255 (by push_cast; ring))]
  rw [List.length_map, List.length_range]

theorem pyMax_replicate_255 : pyMax (List.replicate 256 (255 : ℤ)) = some 255 := by
  rw [show (256 : ℕ) = 255 + 1 from rfl]
  exact pyMax_replicate 255 255

/-- C5: the amplitude-ceiling check is advisory: whenever the 256 sampled
values have a maximum above 247 but at most 255, `sineWave` prints the
warning yet returns the values instead of raising; and a 256-sample
waveform in `[0, 255]` with maximum above 247 is never rejected by the
encoder's shape validation, so the warning never blocks encoding. -/
theorem spec_warning_advisory :
    (∀ (f : ℚ → ℚ) (a o : ℤ) (pts : List ℚ) (m : ℤ),
      pyMax (sineWaveValues f a o pts) = some m → 247 < m → m ≤ 255 →
      (sineWaveValues f a o pts).length = 256 →
      sineWave f (PyVal.int a) (PyVal.int o) pts =
        Except.ok (sineWaveValues f a o pts, true)) ∧
    (∀ (samples : List ℤ) (m : ℤ), samples.length = 256 →
      (∀ v ∈ samples, 0 ≤ v ∧ v ≤ 255) → pyMax samples = some m → 247 < m →
      encodeWaveform samples ≠ Except.error EncodeError.shapeError) := by
  constructor
  · intro f a o pts m hmax h247 h255 hlen
    simp only [sineWave, hmax]
    rw [if_neg (by omega : ¬ 256 ≤ m), if_neg (by omega : ¬ (sineWaveValues f a o pts).length ≠ 256)]
    simp [h247]
  · intro samples m hlen hrange _ _
    exact encode_shape_ok samples ⟨hlen, hrange⟩

set_option maxRecDepth 8000 in
/-- C5 witness: with a constant unit sine and amplitude 255 the sampled
maximum is 255 (above 247): the warning fires and `sineWave` still
returns the 256 values. -/
theorem spec_warning_advisory_witness :
    sineWave (fun _ => 1) (PyVal.int 255) (PyVal.int 0)
        ((List.range 256).map (fun n : ℕ => (n : ℚ))) =
      Except.ok
        (sineWaveValues (fun _ => 1) 255 0 ((List.range 256).map (fun n : ℕ => (n : ℚ))), true) :=
  spec_warning_advisory.1 (fun _ => 1) 255 0 ((List.range 256).map (fun n : ℕ => (n : ℚ))) 255
    (by rw [sineWaveValues_one_255]; exact pyMax_replicate_255)
    (by omega) (by omega)
    (by rw [sineWaveValues_one_255, List.length_replicate])

/-- C6: encoding is deterministic and pure — equal waveforms give
bit-identical RegisterSets, and at the sampler boundary equal amplitude,
offset and sampling points give equal value lists; both functions are
pure (no state), so two invocations coincide. -/
theorem spec_deterministic_pure :
    (∀ w1 w2 : List ℤ, w1 = w2 → encodeWaveform w1 = encodeWaveform w2) ∧
    (∀ (f : ℚ → ℚ) (amplitude offset : PyVal) (p q : List ℚ), p = q →
      sineWave f amplitude offset p = sineWave f amplitude offset q) :=
  ⟨fun _ _ h => by rw [h], fun _ _ _ _ _ h => by rw [h]⟩

/-- C6 witness: two invocations on the same concrete waveform agree. -/
theorem spec_deterministic_pure_witness :
    encodeWaveform (List.replicate 256 7) = encodeWaveform (List.replicate 256 7) :=
  spec_deterministic_pure.1 (List.replicate 256 7) (List.replicate 256 7) rfl

set_option maxRecDepth 8000 in
/-- C7: everything terminates — the `while value < 256` generator loop
halts within `256 - value` iterations from any counter (fuel 256 suffices
from 0 and returns exactly `linearGenerator`'s yields), and the sampling
loop of `sineWave` completes after exactly one value per sampling point. -/
theorem spec_terminates :
    (∀ fuel value : ℕ, 256 ≤ fuel + value → (linearGenFuel fuel value).isSome = true) ∧
    linearGenFuel 256 0 = some linearGenerator ∧
    (∀ (f : ℚ → ℚ) (a o : ℤ) (pts : List ℚ),
      (sineWaveValues f a o pts).length = pts.length) := by
  refine ⟨?_, ?_, ?_⟩
  · intro fuel
    induction fuel with
    | zero =>
      intro value h
      simp only [linearGenFuel]
      rw [if_neg (by omega : ¬ value < 256)]
      rfl
    | succ k ih =>
      intro value h
      simp only [linearGenFuel]
      by_cases hv : value < 256
      · rw [if_pos hv, Option.isSome_map']
        exact ih (value + 1) (by omega)
      · rw [if_neg hv]
        rfl
  · rw [linearGenerator_eq_range]
    decide
  · intro f a o pts
    unfold sineWaveValues
    rw [List.length_map]

/-- C7 witness: with fuel 256 the generator loop from counter 0 halts. -/
theorem spec_terminates_witness : (linearGenFuel 256 0).isSome = true :=
  spec_terminates.1 256 0 (by omega)

theorem sineWaveValues_zero_neg_one (f : ℚ → ℚ) :
    sineWaveValues f 0 (-1) ((List.range 256).map (fun n : ℕ => (n : ℚ))) =
      List.replicate 256 (-1) := by
  rw [sineWaveValues_eq_replicate f 0 (-1) _ (-1)
    (fun i _ => pyRound_eval _ (-1) (by push_cast; ring))]
  rw [List.length_map, List.length_range]

set_option maxRecDepth 8000 in
/-- C8: every list `sineWave` returns has exactly 256 elements with
maximum at most 255, but no lower bound is enforced: with amplitude 0 and
offset −1 it returns 256 negative values without raising any error. -/
theorem spec_values_bounds :
    (∀ (f : ℚ → ℚ) (a o : ℤ) (pts : List ℚ) (vs : List ℤ) (w : Bool),
      sineWave f (PyVal.int a) (PyVal.int o) pts = Except.ok (vs, w) →
      vs.length = 256 ∧ ∀ v ∈ vs, v ≤ 255) ∧
    (∀ f : ℚ → ℚ,
      sineWave f (PyVal.int 0) (PyVal.int (-1))
          ((List.range 256).map (fun n : ℕ => (n : ℚ))) =
        Except.ok (List.replicate 256 (-1), false) ∧ ((-1 : ℤ) < 0)) := by
  constructor
  · intro f a o pts vs w h
    simp only [sineWave] at h
    cases hmax : pyMax (sineWaveValues f a o pts) with
    | none =>
      simp only [hmax] at h
      exact Except.noConfusion h
    | some m =>
      simp only [hmax] at h
      split_ifs at h with h1 h2
      injection h with h'
      cases h'
      constructor
      · exact not_not.1 h2
      · intro v hv
        have h255 := pyMax_le (sineWaveValues f a o pts) m hmax v hv
        omega
  · intro f
    refine ⟨?_, by omega⟩
    have hm : pyMax (List.replicate 256 (-1 : ℤ)) = some (-1) := by
      rw [show (256 : ℕ) = 255 + 1 from rfl]
      exact pyMax_replicate 255 (-1)
    simp only [sineWave, sineWaveValues_zero_neg_one f, hm]
    rw [if_neg (by omega : ¬ (256 : ℤ) ≤ -1),
      if_neg (by simp : ¬ (List.replicate 256 (-1 : ℤ)).length ≠ 256)]
    decide

set_option maxRecDepth 8000 in
/-- C8 witness: the returned list for amplitude 0, offset −1 over the
equidistant points has 256 elements, all at most 255 (here all −1). -/
theorem spec_values_bounds_witness :
    (List.replicate 256 (-1 : ℤ)).length = 256 ∧
      ∀ v ∈ List.replicate 256 (-1 : ℤ), v ≤ 255 :=
  spec_values_bounds.1 (fun _ => 0) 0 (-1) ((List.range 256).map (fun n : ℕ => (n : ℚ)))
    (List.replicate 256 (-1)) false ((spec_values_bounds.2 (fun _ => 0)).1)

/-- C9: `sineWave` fails with `TypeError` exactly when amplitude or offset
is not an `int`; the check is first and independent of the sampling
points, and for `int` arguments a `TypeError` is never raised. -/
theorem spec_typecheck_first :
    (∀ (f : ℚ → ℚ) (amplitude offset : PyVal) (pts : List ℚ),
      ¬(amplitude.isInt = true ∧ offset.isInt = true) →
      sineWave f amplitude offset pts = Except.error PyErr.typeError) ∧
    (∀ (f : ℚ → ℚ) (a o : ℤ) (pts : List ℚ),
      sineWave f (PyVal.int a) (PyVal.int o) pts ≠ Except.error PyErr.typeError) := by
  constructor
  · intro f amplitude offset pts h
    cases amplitude <;> cases offset <;> first | rfl | exact absurd ⟨rfl, rfl⟩ h
  · intro f a o pts hc
    simp only [sineWave] at hc
    cases hmax : pyMax (sineWaveValues f a o pts) with
    | none =>
      simp only [hmax] at hc
      exact PyErr.noConfusion (Except.error.inj hc)
    | some m =>
      simp only [hmax] at hc
      split_ifs at hc with h1 h2
      all_goals exact PyErr.noConfusion (Except.error.inj hc)

/-- C9 witness: a float amplitude is rejected with `TypeError` before any
sampling point is consumed (here there are none at all). -/
theorem spec_typecheck_first_witness :
    sineWave (fun _ => 0) (PyVal.float (1 / 2)) (PyVal.int 0) [] =
      Except.error PyErr.typeError :=
  spec_typecheck_first.1 (fun _ => 0) (PyVal.float (1 / 2)) (PyVal.int 0) [] (by decide)

/-- C10: `hardcodedGenerator` and `linearGenerator` both yield exactly
`0, 1, ..., 255` (256 values, increasing), so `sineWave` produces the
same output on either for any amplitude and offset. -/
theorem spec_generators_equivalent :
    linearGenerator = List.range 256 ∧ hardcodedGenerator = List.range 256 ∧
    ∀ (f : ℚ → ℚ) (amplitude offset : PyVal),
      sineWave f amplitude offset (linearGenerator.map (fun n : ℕ => (n : ℚ))) =
        sineWave f amplitude offset (hardcodedGenerator.map (fun n : ℕ => (n : ℚ))) := by
  refine ⟨linearGenerator_eq_range, hardcodedGenerator_eq_range, ?_⟩
  intro f amplitude offset
  rw [linearGenerator_eq_range, hardcodedGenerator_eq_range]
